import Mathlib

/-!
Shallow embedding of the FastCGI protocol engine of the `vintage` crate.

Byte streams are modelled as `List Nat` (each element a byte value), machine
integers as `Nat` with explicit `% 2^w` where the source casts, fallible
operations as `Except Error`.  The `BTreeMap<String, String>` used by the
name-value records is modelled as a strictly key-sorted association list of
byte strings (`Pairs`), which is exactly the iteration order the Rust map
exposes; Rust `String` ordering is byte-lexicographic, modelled by `lexLt`.
-/

/-- Mirror of `error.rs::Error`.  The `io::Error` payload of
`UnexpectedSocketClose` carries no protocol information and is dropped. -/
inductive Error where
  | UnexpectedSocketClose
  | UnsuportedVersion (v : Nat)
  | UnknownRecordType (t : Nat)
  | MultiplexingUnsupported
  | MalformedRecordPayload (which : String)
  | UnsupportedRole (id : Nat)
  | UnspportedProtocolStatus (s : Nat)
  | InvalidUtf8KeyValuePair
  | MalformedRecordStream
deriving DecidableEq, Repr

/-- Mirror of `record/role.rs::Role` (the source misspells Authorizer). -/
inductive Role where
  | Responder
  | Auhorizer
  | Filter
deriving DecidableEq, Repr

/-- Mirror of `Role::id`. -/
def Role.id : Role → Nat
  | .Responder => 1
  | .Auhorizer => 2
  | .Filter => 3

/-- Mirror of `Role::from_record_bytes`: big-endian u16 from two bytes. -/
def Role.from_record_bytes (b1 b0 : Nat) : Except Error Role :=
  let id := b1 * 256 + b0
  if id = 1 then .ok .Responder
  else if id = 2 then .ok .Auhorizer
  else if id = 3 then .ok .Filter
  else .error (.UnsupportedRole id)

/-- Mirror of `Role::supported`. -/
def Role.supported (r : Role) : Bool :=
  r = Role.Responder

/-- Mirror of `protocol_status.rs::ProtocolStatus`. -/
inductive ProtocolStatus where
  | RequestComplete
  | MultiplexingUnsupported
  | Overloaded
  | UnknownRole
deriving DecidableEq, Repr

/-- Mirror of `ProtocolStatus::id`. -/
def ProtocolStatus.id : ProtocolStatus → Nat
  | .RequestComplete => 0
  | .MultiplexingUnsupported => 1
  | .Overloaded => 2
  | .UnknownRole => 3

/-- Mirror of `ProtocolStatus::from_record_byte`. -/
def ProtocolStatus.from_record_byte (b : Nat) : Except Error ProtocolStatus :=
  if b = 0 then .ok .RequestComplete
  else if b = 1 then .ok .MultiplexingUnsupported
  else if b = 2 then .ok .Overloaded
  else if b = 3 then .ok .UnknownRole
  else .error (.UnspportedProtocolStatus b)

/-- Mirror of `begin_request.rs::BeginRequest` (`flags` is a u8). -/
structure BeginRequest where
  role : Role
  flags : Nat
deriving DecidableEq, Repr

/-- Mirror of `BeginRequest::keep_alive`: `flags & MASK_FCGI_KEEP_CONN == 1`. -/
def BeginRequest.keep_alive (b : BeginRequest) : Bool :=
  b.flags % 2 = 1

/-- Mirror of `end_request.rs::EndRequest` (`exit_code` is a u32). -/
structure EndRequest where
  exit_code : Nat
  protocol_status : ProtocolStatus
deriving DecidableEq, Repr

/-! ## Name-value pairs (`record/pairs.rs`)

The Rust code stores pairs in a `BTreeMap<String, String>`; the map is
modelled as an association list that is strictly sorted by the byte-wise
lexicographic order on keys, which is the order `BTreeMap` iterates in. -/

/-- An association list of byte-string pairs standing for the
`BTreeMap<String, String>` contents, listed in the map's iteration order. -/
abbrev Pairs := List (List Nat × List Nat)

/-- Byte-wise lexicographic strict order on byte strings; this is exactly the
`Ord` instance of Rust `String` restricted to the byte sequences involved. -/
def lexLt : List Nat → List Nat → Bool
  | [], [] => false
  | [], _ :: _ => true
  | _ :: _, [] => false
  | a :: as, b :: bs => a < b || (a = b && lexLt as bs)

/-- Insertion into the sorted association list: the model of
`BTreeMap::insert` (an existing binding for an equal key is replaced). -/
def mapInsert (k v : List Nat) : Pairs → Pairs
  | [] => [(k, v)]
  | (k1, v1) :: rest =>
    if lexLt k k1 then (k, v) :: (k1, v1) :: rest
    else if k = k1 then (k, v) :: rest
    else (k1, v1) :: mapInsert k v rest

/-- Mirror of `BTreeMap::remove`, returning the removed value and the
remaining map. -/
def mapRemove (k : List Nat) : Pairs → Option (List Nat) × Pairs
  | [] => (none, [])
  | (k1, v1) :: rest =>
    if k = k1 then (some v1, rest)
    else
      let (r, m) := mapRemove k rest
      (r, (k1, v1) :: m)

/-- Pairwise strict sortedness by key: the invariant every reachable
`BTreeMap` contents satisfies. -/
def sortedPairs : Pairs → Bool
  | [] => true
  | (k, _) :: rest => rest.all (fun q => lexLt k q.1) && sortedPairs rest

/-- Modelled from the Rust standard library (not part of this repository):
`String::from_utf8` validation, i.e. the UTF-8 well-formedness table
(RFC 3629): disallowing overlong forms, surrogates and values above
U+10FFFF. -/
def validUtf8 : List Nat → Bool
  | [] => true
  | b :: rest =>
    if b < 0x80 then validUtf8 rest
    else if 0xC2 ≤ b ∧ b ≤ 0xDF then
      match rest with
      | c1 :: r => (0x80 ≤ c1 ∧ c1 ≤ 0xBF : Bool) && validUtf8 r
      | [] => false
    else if 0xE0 ≤ b ∧ b ≤ 0xEF then
      match rest with
      | c1 :: c2 :: r =>
        (if b = 0xE0 then (0xA0 ≤ c1 ∧ c1 ≤ 0xBF : Bool)
         else if b = 0xED then (0x80 ≤ c1 ∧ c1 ≤ 0x9F : Bool)
         else (0x80 ≤ c1 ∧ c1 ≤ 0xBF : Bool)) &&
        (0x80 ≤ c2 ∧ c2 ≤ 0xBF : Bool) && validUtf8 r
      | _ => false
    else if 0xF0 ≤ b ∧ b ≤ 0xF4 then
      match rest with
      | c1 :: c2 :: c3 :: r =>
        (if b = 0xF0 then (0x90 ≤ c1 ∧ c1 ≤ 0xBF : Bool)
         else if b = 0xF4 then (0x80 ≤ c1 ∧ c1 ≤ 0x8F : Bool)
         else (0x80 ≤ c1 ∧ c1 ≤ 0xBF : Bool)) &&
        (0x80 ≤ c2 ∧ c2 ≤ 0xBF : Bool) && (0x80 ≤ c3 ∧ c3 ≤ 0xBF : Bool) &&
        validUtf8 r
      | _ => false
    else false

/-- Model of `String::from_utf8` as used in `pairs.rs`: on success the
`String` holds exactly the input bytes. -/
def from_utf8 (bytes : List Nat) : Except Error (List Nat) :=
  if validUtf8 bytes then .ok bytes else .error .InvalidUtf8KeyValuePair

/-- Mirror of `pairs.rs::write_pair_len` for one length: one byte when the
length is at most 127, else the big-endian bytes of `len as u32` with the
high bit of the first byte set. -/
def write_pair_len (len : Nat) : List Nat :=
  if len > 127 then
    let b0 := len / 16777216 % 256
    let b0m := if b0 < 128 then b0 + 128 else b0
    [b0m, len / 65536 % 256, len / 256 % 256, len % 256]
  else [len]

/-- Mirror of `pairs.rs::read_pair_len`: a leading byte at most 127 is the
length; otherwise its high bit is masked off and three more big-endian bytes
follow. -/
def read_pair_len : List Nat → Except Error (Nat × List Nat)
  | [] => .error (.MalformedRecordPayload "Params")
  | b :: rest =>
    if b ≤ 127 then .ok (b, rest)
    else
      match rest with
      | b1 :: b2 :: b3 :: r =>
        .ok ((b % 128) * 16777216 + b1 * 65536 + b2 * 256 + b3, r)
      | _ => .error (.MalformedRecordPayload "Params")

theorem read_pair_len_rest_lt {l r : List Nat} {n : Nat}
    (h : read_pair_len l = .ok (n, r)) : r.length < l.length := by
  match l with
  | [] => simp [read_pair_len] at h
  | b :: rest =>
    by_cases hb : b ≤ 127
    · simp [read_pair_len, hb] at h
      obtain ⟨h1, h2⟩ := h
      subst h2; simp
    · match rest with
      | b1 :: b2 :: b3 :: r2 =>
        simp [read_pair_len, hb] at h
        obtain ⟨h1, h2⟩ := h
        subst h2; simp; omega
      | [] => simp [read_pair_len, hb] at h
      | [b1] => simp [read_pair_len, hb] at h
      | [b1, b2] => simp [read_pair_len, hb] at h

/-- Mirror of the decode loop of `pairs.rs::from_record_bytes`: read the two
lengths, slice out name and value, validate UTF-8, insert into the map, and
continue until the input is exhausted. -/
def pairsFromBytes (input : List Nat) (acc : Pairs) : Except Error Pairs :=
  match input with
  | [] => .ok acc
  | b :: rest =>
    match h1 : read_pair_len (b :: rest) with
    | .error e => .error e
    | .ok (nlen, r1) =>
      match h2 : read_pair_len r1 with
      | .error e => .error e
      | .ok (vlen, r2) =>
        if r2.length < nlen then .error (.MalformedRecordPayload "Params")
        else if (r2.drop nlen).length < vlen then
          .error (.MalformedRecordPayload "Params")
        else
          match from_utf8 (r2.take nlen), from_utf8 ((r2.drop nlen).take vlen) with
          | .error e, _ => .error e
          | .ok _, .error e => .error e
          | .ok name, .ok value =>
            pairsFromBytes ((r2.drop nlen).drop vlen) (mapInsert name value acc)
termination_by input.length
decreasing_by
  have hl1 := read_pair_len_rest_lt h1
  have hl2 := read_pair_len_rest_lt h2
  simp only [List.length_drop, List.length_cons] at hl1 hl2 ⊢
  omega

/-- Mirror of `pairs.rs::to_record_bytes`: name length, value length, name,
value, for each pair in map (iteration) order. -/
def pairsToBytes : Pairs → List Nat
  | [] => []
  | (k, v) :: rest =>
    write_pair_len k.length ++ write_pair_len v.length ++ k ++ v ++ pairsToBytes rest

/-! ## Records (`record.rs`) -/

def FCGI_BEGIN_REQUEST : Nat := 1
def FCGI_ABORT_REQUEST : Nat := 2
def FCGI_END_REQUEST : Nat := 3
def FCGI_PARAMS : Nat := 4
def FCGI_STDIN : Nat := 5
def FCGI_STDOUT : Nat := 6
def FCGI_STDERR : Nat := 7
def FCGI_DATA : Nat := 8
def FCGI_GET_VALUES : Nat := 9
def FCGI_GET_VALUES_RESULT : Nat := 10
def FCGI_UNKNOWN_TYPE : Nat := 11

/-- Mirror of `record.rs::MANAGEMENT_RECORD_TYPES`. -/
def MANAGEMENT_RECORD_TYPES : List Nat :=
  [FCGI_GET_VALUES, FCGI_GET_VALUES_RESULT, FCGI_UNKNOWN_TYPE]

/-- Mirror of `record.rs::DISCRETE_RECORD_TYPES`. -/
def DISCRETE_RECORD_TYPES : List Nat :=
  [FCGI_GET_VALUES, FCGI_GET_VALUES_RESULT, FCGI_UNKNOWN_TYPE,
   FCGI_BEGIN_REQUEST, FCGI_ABORT_REQUEST, FCGI_END_REQUEST]

/-- Mirror of `record.rs::Record`. -/
inductive Record where
  | GetValues (names : Pairs)
  | GetValuesResult (values : Pairs)
  | BeginRequest (r : BeginRequest)
  | Params (m : Pairs)
  | Stdin (bytes : List Nat)
  | Data (bytes : List Nat)
  | Stdout (bytes : List Nat)
  | Stderr (bytes : List Nat)
  | AbortRequest
  | UnknownType (t : Nat)
  | EndRequest (r : EndRequest)
deriving DecidableEq, Repr

/-- Mirror of `Record::type_id`. -/
def Record.type_id : Record → Nat
  | .GetValues _ => FCGI_GET_VALUES
  | .GetValuesResult _ => FCGI_GET_VALUES_RESULT
  | .BeginRequest _ => FCGI_BEGIN_REQUEST
  | .Params _ => FCGI_PARAMS
  | .Stdin _ => FCGI_STDIN
  | .Data _ => FCGI_DATA
  | .Stdout _ => FCGI_STDOUT
  | .Stderr _ => FCGI_STDERR
  | .AbortRequest => FCGI_ABORT_REQUEST
  | .EndRequest _ => FCGI_END_REQUEST
  | .UnknownType _ => FCGI_UNKNOWN_TYPE

/-- Mirror of `BeginRequest::from_record_bytes`: exactly 8 payload bytes,
role from the first two, role must be supported, flags from the third. -/
def BeginRequest.from_record_bytes (bytes : List Nat) : Except Error BeginRequest :=
  match bytes with
  | [r1, r0, flags, _, _, _, _, _] =>
    match Role.from_record_bytes r1 r0 with
    | .error e => .error e
    | .ok role =>
      if role.supported then .ok ⟨role, flags⟩
      else .error (.UnsupportedRole role.id)
  | _ => .error (.MalformedRecordPayload "BeginRequest")

/-- Mirror of `BeginRequest::write_record_bytes`. -/
def BeginRequest.write_record_bytes (b : BeginRequest) : List Nat :=
  [b.role.id / 256, b.role.id % 256, b.flags, 0, 0, 0, 0, 0]

/-- Mirror of `EndRequest::from_record_bytes`: exactly 8 bytes, big-endian
u32 exit code then a protocol status byte; the last three bytes are ignored. -/
def EndRequest.from_record_bytes (bytes : List Nat) : Except Error EndRequest :=
  match bytes with
  | [b0, b1, b2, b3, b4, _, _, _] =>
    match ProtocolStatus.from_record_byte b4 with
    | .error e => .error e
    | .ok ps => .ok ⟨b0 * 16777216 + b1 * 65536 + b2 * 256 + b3, ps⟩
  | _ => .error (.MalformedRecordPayload "EndRequest")

/-- Mirror of `EndRequest::write_record_bytes`. -/
def EndRequest.write_record_bytes (e : EndRequest) : List Nat :=
  [e.exit_code / 16777216 % 256, e.exit_code / 65536 % 256,
   e.exit_code / 256 % 256, e.exit_code % 256, e.protocol_status.id, 0, 0, 0]

/-- Mirror of `UnknownType::from_record_bytes`: exactly 8 bytes, only the
first carries the unknown type id. -/
def UnknownType.from_record_bytes (bytes : List Nat) : Except Error Nat :=
  match bytes with
  | [b0, _, _, _, _, _, _, _] => .ok b0
  | _ => .error (.MalformedRecordPayload "UnknownType")

/-- Mirror of `Record::write_bytes`: the serialized payload of each variant
(the byte sink is modelled as the returned list). -/
def Record.write_bytes : Record → List Nat
  | .GetValues m => pairsToBytes m
  | .GetValuesResult m => pairsToBytes m
  | .BeginRequest b => b.write_record_bytes
  | .Params m => pairsToBytes m
  | .Stdin bs => bs
  | .Data bs => bs
  | .Stdout bs => bs
  | .Stderr bs => bs
  | .AbortRequest => []
  | .UnknownType t => [t, 0, 0, 0, 0, 0, 0, 0]
  | .EndRequest e => e.write_record_bytes

/-- Mirror of `Record::from_bytes`: dispatch on the wire type id. -/
def Record.from_bytes (type_id : Nat) (payload : List Nat) : Except Error Record :=
  if type_id = FCGI_GET_VALUES then (pairsFromBytes payload []).map Record.GetValues
  else if type_id = FCGI_GET_VALUES_RESULT then
    (pairsFromBytes payload []).map Record.GetValuesResult
  else if type_id = FCGI_BEGIN_REQUEST then
    (BeginRequest.from_record_bytes payload).map Record.BeginRequest
  else if type_id = FCGI_PARAMS then (pairsFromBytes payload []).map Record.Params
  else if type_id = FCGI_STDIN then .ok (.Stdin payload)
  else if type_id = FCGI_DATA then .ok (.Data payload)
  else if type_id = FCGI_STDOUT then .ok (.Stdout payload)
  else if type_id = FCGI_STDERR then .ok (.Stderr payload)
  else if type_id = FCGI_ABORT_REQUEST then
    (if payload = [] then .ok .AbortRequest
     else .error (.MalformedRecordPayload "AbortRequest"))
  else if type_id = FCGI_END_REQUEST then
    (EndRequest.from_record_bytes payload).map Record.EndRequest
  else if type_id = FCGI_UNKNOWN_TYPE then
    (UnknownType.from_record_bytes payload).map Record.UnknownType
  else .error (.UnknownRecordType type_id)

/-! ## Framing layer (`connection.rs`)

The bidirectional byte stream is modelled explicitly: reading functions take
the incoming byte list and return the unconsumed remainder; writing functions
return the bytes put on the wire. -/

/-- Mirror of `connection.rs::Packet`. -/
structure Packet where
  type_id : Nat
  content : List Nat
deriving DecidableEq, Repr

/-- Mirror of `Packet::is_incomplete` (membership in the discrete types;
the source name is inverted but this is its body). -/
def Packet.is_incomplete (p : Packet) : Bool :=
  DISCRETE_RECORD_TYPES.contains p.type_id

/-- Mirror of `Packet::is_empty`. -/
def Packet.is_empty (p : Packet) : Bool :=
  p.content.isEmpty

/-- Mirror of `Connection::read_packet`: an 8-byte header
`[version, type, reqid_hi, reqid_lo, len_hi, len_lo, pad_len, reserved]`,
then `len` content bytes, then `pad_len` padding bytes that are discarded. -/
def readPacket : List Nat → Except Error (Packet × List Nat)
  | version :: type_id :: req1 :: req0 :: len1 :: len0 :: pad :: _ :: rest =>
    if version ≠ 1 then .error (.UnsuportedVersion version)
    else if req1 * 256 + req0 > 1 then .error .MultiplexingUnsupported
    else
      let len := len1 * 256 + len0
      if rest.length < len + pad then .error .UnexpectedSocketClose
      else .ok (⟨type_id, rest.take len⟩, (rest.drop len).drop pad)
  | _ => .error .UnexpectedSocketClose

theorem readPacket_rest_le {input rest : List Nat} {p : Packet}
    (h : readPacket input = .ok (p, rest)) : rest.length + 8 ≤ input.length := by
  match input with
  | version :: type_id :: req1 :: req0 :: len1 :: len0 :: pad :: rsv :: r =>
    simp only [readPacket] at h
    split at h
    · exact absurd h (by simp)
    · split at h
      · exact absurd h (by simp)
      · split at h
        · exact absurd h (by simp)
        · simp only [Except.ok.injEq, Prod.mk.injEq] at h
          obtain ⟨h1, h2⟩ := h
          subst h2
          simp only [List.length_drop, List.length_cons]
          omega
  | [] => simp [readPacket] at h
  | [a] => simp [readPacket] at h
  | [a, b] => simp [readPacket] at h
  | [a, b, c] => simp [readPacket] at h
  | [a, b, c, d] => simp [readPacket] at h
  | [a, b, c, d, e] => simp [readPacket] at h
  | [a, b, c, d, e, f] => simp [readPacket] at h
  | [a, b, c, d, e, f, g] => simp [readPacket] at h

/-- Mirror of the accumulation loop in `Connection::read_record`: keep
reading packets of the expected type until an empty one arrives, failing on a
type change mid-stream. -/
def readRecordLoop (expected : Nat) (acc : List (List Nat)) (input : List Nat) :
    Except Error (List (List Nat) × List Nat) :=
  match h : readPacket input with
  | .error e => .error e
  | .ok (p, rest) =>
    if p.type_id ≠ expected then .error .MalformedRecordStream
    else if p.is_empty then .ok (acc, rest)
    else readRecordLoop expected (acc ++ [p.content]) rest
termination_by input.length
decreasing_by
  have := readPacket_rest_le h
  omega

/-- Mirror of `Connection::read_record`: decode a discrete-or-empty first
packet immediately, otherwise accumulate same-type packets until the empty
trailer and decode the concatenation in arrival order. -/
def readRecord (input : List Nat) : Except Error (Record × List Nat) := do
  let (first, rest) ← readPacket input
  if first.is_incomplete || first.is_empty then
    let r ← Record.from_bytes first.type_id first.content
    return (r, rest)
  else
    let (contents, rest2) ← readRecordLoop first.type_id [first.content] rest
    let r ← Record.from_bytes first.type_id contents.flatten
    return (r, rest2)

/-- Modelled from the spec: `Record::is_management_record` is called by
`Connection::write_record` but its definition is not under `src/`; per the
spec the management records are `GetValues`, `GetValuesResult` and
`UnknownType` (carried on request id 0), i.e. membership of the type id in
`MANAGEMENT_RECORD_TYPES`. -/
def Record.is_management_record (r : Record) : Bool :=
  MANAGEMENT_RECORD_TYPES.contains r.type_id

/-- Padding length chosen by `Connection::write_record` for a payload of `L`
bytes: the distance from `8 + L` up to the next multiple of 8. -/
def writePadding (L : Nat) : Nat :=
  (8 + L + 7) / 8 * 8 - (8 + L)

/-- Mirror of `Connection::write_record`: one packet holding the whole
serialized payload — header (version 1, type id, request id, the payload
length truncated to u16, padding length, reserved 0), payload, zero padding. -/
def writeRecord (r : Record) : List Nat :=
  let payload := r.write_bytes
  let padding := writePadding payload.length
  [1, r.type_id] ++
  (if r.is_management_record then [0, 0] else [0, 1]) ++
  [payload.length / 256 % 256, payload.length % 256] ++
  [padding, 0] ++
  payload ++
  List.replicate padding 0

/-- Number of packets a byte stream parses into, `none` if it is not a whole
number of well-formed packets. -/
def packetCount (input : List Nat) : Option Nat :=
  match input with
  | [] => some 0
  | b :: rest0 =>
    match h : readPacket (b :: rest0) with
    | .error _ => none
    | .ok (_, rest) => (packetCount rest).map (· + 1)
termination_by input.length
decreasing_by
  have := readPacket_rest_le h
  omega

/-- A client-side packet of type `t` carrying `content`, with request id 1
and no padding: the shape used to feed the reading functions. -/
def encPacket (t : Nat) (content : List Nat) : List Nat :=
  [1, t, 0, 1, content.length / 256 % 256, content.length % 256, 0, 0] ++ content

/-! ## Handler boundary (`context.rs`) and connection handling
(`fastcgi_responder.rs`) -/

/-- ASCII byte string of a Lean string literal (used for the concrete
CGI meta-variable names appearing in the source). -/
def strBytes (s : String) : List Nat :=
  s.data.map Char.toNat

/-- Mirror of `context.rs::Request` (the `created_at` timestamp and the lazy
query-string cell are real-time and caching artifacts with no bearing on the
wire behaviour and are not modelled). -/
structure Request where
  method : List Nat
  path : List Nat
  query_string : List Nat
  headers : Pairs
  body : List Nat
deriving DecidableEq, Repr

/-- Mirror of `context.rs::Response`. -/
structure Response where
  status : Nat
  headers : Pairs
  body : List Nat
deriving DecidableEq, Repr

/-- Mirror of `Response::default`: status 200, no headers, empty body. -/
def Response.default : Response :=
  ⟨200, [], []⟩

/-- Mirror of `Response::set_header`. -/
def Response.set_header (r : Response) (k v : List Nat) : Response :=
  { r with headers := mapInsert k v r.headers }

/-- Mirror of `Response::set_status`. -/
def Response.set_status (r : Response) (code : Nat) : Response :=
  { r with status := code }

/-- Decimal ASCII digits of a number, as written by `write!` for a u16. -/
def natDecimal (n : Nat) : List Nat :=
  (Nat.toDigits 10 n).map Char.toNat

/-- Header lines of `Response::write_stdout_bytes`: each map entry as
`K: V` and a newline, in map (iteration) order. -/
def headerLines : Pairs → List Nat
  | [] => []
  | (k, v) :: rest => k ++ [58, 32] ++ v ++ [10] ++ headerLines rest

/-- Mirror of `context.rs::Response::write_stdout_bytes`: the header lines,
then `Status: <code>` and a newline, then a blank line, then the body. -/
def Response.write_stdout_bytes (r : Response) : List Nat :=
  headerLines r.headers ++ strBytes "Status: " ++ natDecimal r.status ++ [10] ++
  [10] ++ r.body

/-- Mirror of `server_config.rs::ServerConfig`: the optional static-file
layer, router layer and fallback handler.  The file server and router are
out-of-scope collaborators; their `respond` entry points are modelled as the
functions the core calls. -/
structure ServerConfig where
  file_server : Option (Request → Option Response)
  router : Option (Request → Option Response)
  fallback : Option (Request → Response)

/-- Mirror of `status.rs::NOT_FOUND`. -/
def NOT_FOUND : Nat := 404

/-- Modelled from the `convert_case` crate (an external dependency):
uppercase one ASCII letter. -/
def upperByte (c : Nat) : Nat :=
  if 97 ≤ c ∧ c ≤ 122 then c - 32 else c

/-- Modelled from the `convert_case` crate (an external dependency):
lowercase one ASCII letter. -/
def lowerByte (c : Nat) : Nat :=
  if 65 ≤ c ∧ c ≤ 90 then c + 32 else c

/-- Split a byte string on underscore (byte 95). -/
def splitUnderscore : List Nat → List (List Nat)
  | [] => [[]]
  | c :: rest =>
    let r := splitUnderscore rest
    if c = 95 then [] :: r
    else (c :: r.headD []) :: r.tail

/-- Modelled from the `convert_case` crate: `to_case(Case::Train)` on the
ASCII names the CGI contract supplies — each underscore-separated word is
capitalized and the words are joined with hyphens (`USER_AGENT` to
`User-Agent`). -/
def trainCase (s : List Nat) : List Nat :=
  let words := (splitUnderscore s).map fun w =>
    match w with
    | [] => []
    | c :: rest => upperByte c :: rest.map lowerByte
  (words.intersperse [45]).flatten

/-- The `HTTP_` prefix detection of `handle_connection`
(`k.strip_prefix("HTTP_")`). -/
def hasHttpPfx (k : List Nat) : Bool :=
  strBytes "HTTP_" |>.isPrefixOf k

/-- The header-derivation loop of `handle_connection`: every remaining
variable whose name starts with `HTTP_` is inserted (later entries
overwriting earlier ones) under the Train-cased suffix. -/
def buildHeaders (vars : Pairs) : Pairs :=
  vars.foldl
    (fun acc kv =>
      if hasHttpPfx kv.1 then mapInsert (trainCase (kv.1.drop 5)) kv.2 acc
      else acc)
    []

/-- The response-selection chain of `handle_connection`: file server first,
then router, then the fallback, then a 404 default. -/
def resolveResponse (cfg : ServerConfig) (req : Request) : Response :=
  let r1 : Option Response :=
    match cfg.file_server with
    | some fs => fs req
    | none => none
  let r2 : Option Response :=
    match r1 with
    | some r => some r
    | none =>
      match cfg.router with
      | some ro => ro req
      | none => none
  let r3 : Option Response :=
    match r2 with
    | some r => some r
    | none =>
      match cfg.fallback with
      | some f => some (f req)
      | none => none
  r3.getD (Response.default.set_status NOT_FOUND)

/-- Mirror of `fastcgi_responder.rs::handle_error`: the errors the spec maps
to wire replies produce one record; everything else closes silently. -/
def handle_error (e : Error) : List Nat :=
  match e with
  | .UnsupportedRole _ => writeRecord (.EndRequest ⟨0, .UnknownRole⟩)
  | .MultiplexingUnsupported => writeRecord (.EndRequest ⟨0, .MultiplexingUnsupported⟩)
  | .UnknownRecordType t => writeRecord (.UnknownType t)
  | _ => []

/-- Byte string of `FCGI_MPXS_CONNS`. -/
def MPXS_CONNS : List Nat := strBytes "FCGI_MPXS_CONNS"

/-- The loop body of `fastcgi_responder.rs::handle_get_values` applied to
the queried variable names in map order: starting from
`GetValuesResult::default()` (empty), the first name equal to
`FCGI_MPXS_CONNS` adds the pair `FCGI_MPXS_CONNS = "0"` and breaks. -/
def getValuesReply : List (List Nat) → Pairs
  | [] => []
  | v :: rest =>
    if v = MPXS_CONNS then [(MPXS_CONNS, [48])]
    else getValuesReply rest

/-- Mirror of `fastcgi_responder.rs::handle_get_values`: write exactly one
`GetValuesResult` built by `getValuesReply` over the queried names. -/
def handle_get_values (names : Pairs) : List Nat :=
  writeRecord (.GetValuesResult (getValuesReply (names.map Prod.fst)))

/-- Mirror of `fastcgi_responder.rs::handle_connection`: the per-connection
state machine, from the incoming byte stream to the bytes written back. -/
def handle_connection (cfg : ServerConfig) (input : List Nat) : List Nat :=
  match readRecord input with
  | .error e => handle_error e
  | .ok (.GetValues names, _) => handle_get_values names
  | .ok (.BeginRequest begin, rest1) =>
    if begin.keep_alive then
      writeRecord (.EndRequest ⟨0, .MultiplexingUnsupported⟩)
    else
      match readRecord rest1 with
      | .error e => handle_error e
      | .ok (.Params vars, rest2) =>
        match readRecord rest2 with
        | .error e => handle_error e
        | .ok (.Stdin body, _) =>
          match mapRemove (strBytes "REQUEST_METHOD") vars with
          | (none, _) => []
          | (some method, vars1) =>
            match mapRemove (strBytes "PATH_INFO") vars1 with
            | (none, _) => []
            | (some path, vars2) =>
              match mapRemove (strBytes "QUERY_STRING") vars2 with
              | (none, _) => []
              | (some query_string, vars3) =>
                let req : Request :=
                  ⟨method, path, query_string, buildHeaders vars3, body⟩
                let response := resolveResponse cfg req
                writeRecord (.Stdout response.write_stdout_bytes) ++
                writeRecord (.EndRequest ⟨0, .RequestComplete⟩)
        | .ok _ => []
      | .ok _ => []
  | .ok _ => []

/-! ## Lemmas about the sorted map -/

theorem lexLt_irrefl (a : List Nat) : lexLt a a = false := by
  induction a with
  | nil => rfl
  | cons x xs ih => simp [lexLt, ih]

theorem lexLt_asymm {a b : List Nat} (h : lexLt a b = true) :
    lexLt b a = false := by
  induction a generalizing b with
  | nil =>
    cases b with
    | nil => simp [lexLt] at h
    | cons y ys => rfl
  | cons x xs ih =>
    cases b with
    | nil => simp [lexLt] at h
    | cons y ys =>
      simp [lexLt] at h ⊢
      rcases h with h | ⟨he, h⟩
      · constructor
        · omega
        · intro hyx; omega
      · subst he
        constructor
        · omega
        · intro _; exact ih h

theorem lexLt_ne {a b : List Nat} (h : lexLt a b = true) : a ≠ b := by
  intro he
  subst he
  rw [lexLt_irrefl] at h
  exact absurd h (by simp)

theorem lexLt_connex {a b : List Nat} (h1 : lexLt a b = false) (h2 : a ≠ b) :
    lexLt b a = true := by
  induction a generalizing b with
  | nil =>
    cases b with
    | nil => exact absurd rfl h2
    | cons y ys => simp [lexLt] at h1
  | cons x xs ih =>
    cases b with
    | nil => simp [lexLt]
    | cons y ys =>
      simp [lexLt] at h1 ⊢
      obtain ⟨hxy, heq⟩ := h1
      by_cases hx : x = y
      · subst hx
        refine Or.inr ⟨rfl, ?_⟩
        exact ih (heq rfl) fun he => h2 (by rw [he])
      · left; omega

/-- Inserting a key greater than every key of the map appends at the end. -/
theorem mapInsert_append {k : List Nat} (v : List Nat) {m : Pairs}
    (h : ∀ p ∈ m, lexLt p.1 k = true) : mapInsert k v m = m ++ [(k, v)] := by
  induction m with
  | nil => rfl
  | cons p rest ih =>
    obtain ⟨k1, v1⟩ := p
    have hk1 : lexLt k1 k = true := h (k1, v1) (by simp)
    have h2 : lexLt k k1 = false := lexLt_asymm hk1
    have h3 : k ≠ k1 := fun he => (lexLt_ne hk1) he.symm
    simp [mapInsert, h2, h3]
    exact ih fun p hp => h p (by simp [hp])

/-- Folding `mapInsert` over a list of strictly ascending keys, all above
the keys of the accumulator, appends the list. -/
theorem foldl_mapInsert_sorted {m : Pairs} (acc : Pairs)
    (hs : sortedPairs m = true)
    (hacc : ∀ p ∈ acc, ∀ q ∈ m, lexLt p.1 q.1 = true) :
    List.foldl (fun a p => mapInsert p.1 p.2 a) acc m = acc ++ m := by
  induction m generalizing acc with
  | nil => simp
  | cons p rest ih =>
    obtain ⟨k, v⟩ := p
    simp only [sortedPairs, Bool.and_eq_true, List.all_eq_true] at hs
    obtain ⟨hall, hrest⟩ := hs
    have h1 : mapInsert k v acc = acc ++ [(k, v)] := by
      refine mapInsert_append v fun q hq => ?_
      exact hacc q hq (k, v) (by simp)
    simp only [List.foldl_cons, h1]
    rw [ih (acc ++ [(k, v)]) hrest ?_]
    · simp
    · intro p hp q hq
      rcases List.mem_append.mp hp with hp1 | hp2
      · exact hacc p hp1 q (by simp [hq])
      · simp at hp2
        subst hp2
        exact hall q hq

theorem read_write_pair_len {n : Nat} (hn : n < 2147483648) (rest : List Nat) :
    read_pair_len (write_pair_len n ++ rest) = .ok (n, rest) := by
  by_cases h : n > 127
  · have hb0 : n / 16777216 % 256 < 128 := by omega
    simp only [write_pair_len, if_pos h, hb0, if_pos, List.cons_append,
      read_pair_len]
    have hge : ¬ (n / 16777216 % 256 + 128 ≤ 127) := by omega
    simp only [if_neg hge, Except.ok.injEq, Prod.mk.injEq]
    constructor
    · omega
    · rfl
  · simp only [write_pair_len, if_neg h, List.cons_append, List.nil_append,
      read_pair_len]
    have : n ≤ 127 := by omega
    simp [this]

/-- Decoding the encoding of a map folds its pairs into the accumulator. -/
theorem pairsFromBytes_encode {m : Pairs} (acc : Pairs)
    (hwf : ∀ p ∈ m, validUtf8 p.1 = true ∧ validUtf8 p.2 = true ∧
      p.1.length < 2147483648 ∧ p.2.length < 2147483648) :
    pairsFromBytes (pairsToBytes m) acc =
      .ok (List.foldl (fun a p => mapInsert p.1 p.2 a) acc m) := by
  induction m generalizing acc with
  | nil => simp [pairsToBytes, pairsFromBytes]
  | cons p rest ih =>
    obtain ⟨k, v⟩ := p
    obtain ⟨hku, hvu, hkl, hvl⟩ := hwf (k, v) (by simp)
    have henc : pairsToBytes ((k, v) :: rest) =
        write_pair_len k.length ++
          (write_pair_len v.length ++ (k ++ (v ++ pairsToBytes rest))) := by
      simp [pairsToBytes]
    have h1 : read_pair_len (pairsToBytes ((k, v) :: rest)) =
        .ok (k.length, write_pair_len v.length ++ (k ++ (v ++ pairsToBytes rest))) := by
      rw [henc]; exact read_write_pair_len hkl _
    have h2 : read_pair_len (write_pair_len v.length ++ (k ++ (v ++ pairsToBytes rest))) =
        .ok (v.length, k ++ (v ++ pairsToBytes rest)) :=
      read_write_pair_len hvl _
    have hne : pairsToBytes ((k, v) :: rest) ≠ [] := by
      rw [henc]
      simp only [ne_eq, List.append_eq_nil]
      intro hcon
      have : write_pair_len k.length ≠ [] := by
        by_cases hl : k.length > 127 <;> simp [write_pair_len, hl]
      exact this hcon.1
    have htake : (k ++ (v ++ pairsToBytes rest)).take k.length = k :=
      List.take_left k _
    have hdrop : (k ++ (v ++ pairsToBytes rest)).drop k.length =
        v ++ pairsToBytes rest :=
      List.drop_left k _
    have hlen1 : ¬ ((k ++ (v ++ pairsToBytes rest)).length < k.length) := by
      simp
    have htake2 : (v ++ pairsToBytes rest).take v.length = v :=
      List.take_left v _
    have hdrop2 : (v ++ pairsToBytes rest).drop v.length = pairsToBytes rest :=
      List.drop_left v _
    have hlen2 : ¬ ((v ++ pairsToBytes rest).length < v.length) := by
      simp
    match hh : pairsToBytes ((k, v) :: rest) with
    | [] => exact absurd hh hne
    | b :: bs =>
      rw [hh] at h1
      rw [pairsFromBytes.eq_def]
      split
      · rename_i x heqnil
        exact absurd heqnil (by simp)
      · rename_i b2 bs2 heqcons
        injection heqcons with hb hbs
        subst hb
        subst hbs
        split
        · rename_i e heq2
          rw [h1] at heq2
          exact absurd heq2 (by simp)
        · rename_i nlen r1 heq2
          rw [h1] at heq2
          have hcomp : k.length = nlen ∧
              write_pair_len v.length ++ (k ++ (v ++ pairsToBytes rest)) = r1 := by
            simpa using heq2
          obtain ⟨hn, hr⟩ := hcomp
          subst hn
          subst hr
          split
          · rename_i e heq3
            rw [h2] at heq3
            exact absurd heq3 (by simp)
          · rename_i vlen r2 heq3
            rw [h2] at heq3
            have hcomp2 : v.length = vlen ∧ k ++ (v ++ pairsToBytes rest) = r2 := by
              simpa using heq3
            obtain ⟨hv, hr2⟩ := hcomp2
            subst hv
            subst hr2
            rw [if_neg hlen1, hdrop, if_neg hlen2, htake, htake2, hdrop2]
            simp only [from_utf8, hku, hvu, if_true, if_pos]
            rw [ih (mapInsert k v acc) fun p hp => hwf p (by simp [hp])]
            simp

theorem lexLt_trans {a b c : List Nat} (h1 : lexLt a b = true)
    (h2 : lexLt b c = true) : lexLt a c = true := by
  induction a generalizing b c with
  | nil =>
    cases c with
    | nil =>
      cases b with
      | nil => simp [lexLt] at h1
      | cons y ys => simp [lexLt] at h2
    | cons z zs => simp [lexLt]
  | cons x xs ih =>
    cases b with
    | nil => simp [lexLt] at h1
    | cons y ys =>
      cases c with
      | nil => simp [lexLt] at h2
      | cons z zs =>
        simp [lexLt] at h1 h2 ⊢
        rcases h1 with h1 | ⟨he1, h1⟩
        · rcases h2 with h2 | ⟨he2, h2⟩
          · left; omega
          · left; omega
        · rcases h2 with h2 | ⟨he2, h2⟩
          · left; omega
          · subst he1; subst he2
            exact Or.inr ⟨rfl, ih h1 h2⟩

theorem mapInsert_mem {p : List Nat × List Nat} {k v : List Nat} {m : Pairs}
    (h : p ∈ mapInsert k v m) : p = (k, v) ∨ p ∈ m := by
  induction m with
  | nil => simpa [mapInsert] using h
  | cons q rest ih =>
    obtain ⟨k1, v1⟩ := q
    by_cases h1 : lexLt k k1 = true
    · simp [mapInsert, h1] at h
      rcases h with h | h | h
      · exact Or.inl (by simp [h])
      · exact Or.inr (by simp [h])
      · exact Or.inr (by simp [h])
    · by_cases h2 : k = k1
      · subst h2
        simp [mapInsert, lexLt_irrefl] at h
        rcases h with h | h
        · exact Or.inl (by simp [h])
        · exact Or.inr (by simp [h])
      · simp [mapInsert, h1, h2] at h
        rcases h with h | h
        · exact Or.inr (by simp [h])
        · rcases ih h with h3 | h3
          · exact Or.inl h3
          · exact Or.inr (by simp [h3])

theorem mapInsert_sorted {m : Pairs} (k v : List Nat)
    (h : sortedPairs m = true) : sortedPairs (mapInsert k v m) = true := by
  induction m with
  | nil => simp [mapInsert, sortedPairs]
  | cons q rest ih =>
    obtain ⟨k1, v1⟩ := q
    simp only [sortedPairs, Bool.and_eq_true, List.all_eq_true] at h
    obtain ⟨hall, hrest⟩ := h
    by_cases h1 : lexLt k k1 = true
    · simp only [mapInsert, h1, if_true, sortedPairs, Bool.and_eq_true,
        List.all_eq_true]
      refine ⟨?_, hall, hrest⟩
      intro q hq
      simp at hq
      rcases hq with rfl | hq
      · exact h1
      · exact lexLt_trans h1 (hall q hq)
    · by_cases h2 : k = k1
      · subst h2
        simp only [mapInsert, h1, if_true, if_false, sortedPairs,
          Bool.and_eq_true, List.all_eq_true, reduceIte, lexLt_irrefl]
        exact ⟨hall, hrest⟩
      · simp only [mapInsert, h1, h2, if_false, sortedPairs, Bool.and_eq_true,
        List.all_eq_true, reduceIte]
        refine ⟨?_, ih hrest⟩
        intro q hq
        rcases mapInsert_mem hq with h3 | h3
        · simp only [h3]
          exact lexLt_connex (by simpa using h1) h2
        · exact hall q h3

/-- A map built by a sequence of `BTreeMap::insert` calls starting from the
empty map (the way every map in the source is built). -/
def mapFromInserts (l : List (List Nat × List Nat)) : Pairs :=
  l.foldl (fun a p => mapInsert p.1 p.2 a) []

theorem foldl_mapInsert_sortedPairs (l : List (List Nat × List Nat))
    (acc : Pairs) (h : sortedPairs acc = true) :
    sortedPairs (l.foldl (fun a p => mapInsert p.1 p.2 a) acc) = true := by
  induction l generalizing acc with
  | nil => simpa
  | cons p rest ih =>
    simp only [List.foldl_cons]
    exact ih _ (mapInsert_sorted p.1 p.2 h)

/-- Well-formedness of a map value reachable in the Rust code: strictly
sorted keys (the `BTreeMap` invariant), names and values valid UTF-8 (the
`String` invariant) and of representable length. -/
def pairsWF (m : Pairs) : Bool :=
  sortedPairs m && m.all fun p =>
    validUtf8 p.1 && validUtf8 p.2 &&
    decide (p.1.length < 2147483648) && decide (p.2.length < 2147483648)

/-- Decoding the encoding of a well-formed map gives the map back. -/
theorem pairs_roundtrip {m : Pairs} (h : pairsWF m = true) :
    pairsFromBytes (pairsToBytes m) [] = .ok m := by
  simp only [pairsWF, Bool.and_eq_true, List.all_eq_true] at h
  obtain ⟨hs, hwf⟩ := h
  rw [pairsFromBytes_encode [] fun p hp => by
    have := hwf p hp
    simp only [Bool.and_eq_true, decide_eq_true_eq] at this
    exact ⟨this.1.1.1, this.1.1.2, this.1.2, this.2⟩]
  rw [foldl_mapInsert_sorted [] hs (by simp)]
  simp

/-- Well-formedness of a record value reachable in the Rust code: the map
invariants for the name-value variants, a `u8` flag byte and a supported
role for `BeginRequest` (the only kind `from_record_bytes` ever
constructs), and a `u32` exit code for `EndRequest`. -/
def recordWF : Record → Bool
  | .GetValues m => pairsWF m
  | .GetValuesResult m => pairsWF m
  | .Params m => pairsWF m
  | .BeginRequest b => decide (b.role = Role.Responder) && decide (b.flags < 256)
  | .EndRequest e => decide (e.exit_code < 4294967296)
  | _ => true

/-! ## C2: decode after encode -/

/-- C2 counterexample: the round trip is not the identity on all
constructible records.  Encoding `BeginRequest` with role Authorizer and
decoding it back yields `UnsupportedRole(2)`, not the record; and decoding
also accepts non-canonical payloads (here, one with junk in the five
reserved bytes), so `Ok(r)` does not happen exactly on `r`'s encoding. -/
theorem C2_roundtrip_counterexample :
    Record.from_bytes
      (Record.BeginRequest ⟨.Auhorizer, 0⟩).type_id
      (Record.BeginRequest ⟨.Auhorizer, 0⟩).write_bytes
      = .error (.UnsupportedRole 2) ∧
    Record.from_bytes 1 [0, 1, 0, 9, 9, 9, 9, 9]
      = .ok (.BeginRequest ⟨.Responder, 0⟩) ∧
    [0, 1, 0, 9, 9, 9, 9, 9] ≠ (Record.BeginRequest ⟨.Responder, 0⟩).write_bytes := by
  refine ⟨rfl, rfl, by decide⟩

/-- Decoding a well-formed record's own encoding gives the record back
(shared helper). -/
theorem decode_write_roundtrip (r : Record) (h : recordWF r = true) :
    Record.from_bytes r.type_id r.write_bytes = .ok r := by
  cases r with
  | GetValues m =>
    simp only [recordWF] at h
    simp [Record.from_bytes, Record.type_id, Record.write_bytes,
      FCGI_GET_VALUES, pairs_roundtrip h, Except.map]
  | GetValuesResult m =>
    simp only [recordWF] at h
    simp [Record.from_bytes, Record.type_id, Record.write_bytes,
      FCGI_GET_VALUES, FCGI_GET_VALUES_RESULT, pairs_roundtrip h, Except.map]
  | Params m =>
    simp only [recordWF] at h
    simp [Record.from_bytes, Record.type_id, Record.write_bytes,
      FCGI_GET_VALUES, FCGI_GET_VALUES_RESULT, FCGI_BEGIN_REQUEST,
      FCGI_PARAMS, pairs_roundtrip h, Except.map]
  | BeginRequest b =>
    obtain ⟨role, flags⟩ := b
    simp only [recordWF, Bool.and_eq_true, decide_eq_true_eq] at h
    obtain ⟨hrole, hflags⟩ := h
    subst hrole
    simp [Record.from_bytes, Record.type_id, Record.write_bytes,
      FCGI_GET_VALUES, FCGI_GET_VALUES_RESULT, FCGI_BEGIN_REQUEST,
      BeginRequest.write_record_bytes, BeginRequest.from_record_bytes,
      Role.id, Role.from_record_bytes, Role.supported, Except.map]
  | Stdin bs =>
    simp [Record.from_bytes, Record.type_id, Record.write_bytes,
      FCGI_GET_VALUES, FCGI_GET_VALUES_RESULT, FCGI_BEGIN_REQUEST,
      FCGI_PARAMS, FCGI_STDIN]
  | Data bs =>
    simp [Record.from_bytes, Record.type_id, Record.write_bytes,
      FCGI_GET_VALUES, FCGI_GET_VALUES_RESULT, FCGI_BEGIN_REQUEST,
      FCGI_PARAMS, FCGI_STDIN, FCGI_DATA]
  | Stdout bs =>
    simp [Record.from_bytes, Record.type_id, Record.write_bytes,
      FCGI_GET_VALUES, FCGI_GET_VALUES_RESULT, FCGI_BEGIN_REQUEST,
      FCGI_PARAMS, FCGI_STDIN, FCGI_DATA, FCGI_STDOUT]
  | Stderr bs =>
    simp [Record.from_bytes, Record.type_id, Record.write_bytes,
      FCGI_GET_VALUES, FCGI_GET_VALUES_RESULT, FCGI_BEGIN_REQUEST,
      FCGI_PARAMS, FCGI_STDIN, FCGI_DATA, FCGI_STDOUT, FCGI_STDERR]
  | AbortRequest =>
    simp [Record.from_bytes, Record.type_id, Record.write_bytes,
      FCGI_GET_VALUES, FCGI_GET_VALUES_RESULT, FCGI_BEGIN_REQUEST,
      FCGI_PARAMS, FCGI_STDIN, FCGI_DATA, FCGI_STDOUT, FCGI_STDERR,
      FCGI_ABORT_REQUEST]
  | UnknownType t =>
    simp [Record.from_bytes, Record.type_id, Record.write_bytes,
      FCGI_GET_VALUES, FCGI_GET_VALUES_RESULT, FCGI_BEGIN_REQUEST,
      FCGI_PARAMS, FCGI_STDIN, FCGI_DATA, FCGI_STDOUT, FCGI_STDERR,
      FCGI_ABORT_REQUEST, FCGI_END_REQUEST, FCGI_UNKNOWN_TYPE,
      UnknownType.from_record_bytes, Except.map]
  | EndRequest e =>
    obtain ⟨code, ps⟩ := e
    simp only [recordWF, decide_eq_true_eq] at h
    cases ps <;>
      simp [Record.from_bytes, Record.type_id, Record.write_bytes,
        FCGI_GET_VALUES, FCGI_GET_VALUES_RESULT, FCGI_BEGIN_REQUEST,
        FCGI_PARAMS, FCGI_STDIN, FCGI_DATA, FCGI_STDOUT, FCGI_STDERR,
        FCGI_ABORT_REQUEST, FCGI_END_REQUEST,
        EndRequest.write_record_bytes, EndRequest.from_record_bytes,
        ProtocolStatus.id, ProtocolStatus.from_record_byte, Except.map] <;>
      omega

/-- C2 (amended): for every well-formed record — name-value maps strictly
sorted with valid-UTF-8 entries of representable length, `BeginRequest` role
Responder (the only role `from_record_bytes` constructs), `u8` flags and
`u32` exit code — decoding the record's own encoding under its own type id
returns the record itself. -/
theorem C2_decode_encode_roundtrip (r : Record) (h : recordWF r = true) :
    Record.from_bytes r.type_id r.write_bytes = .ok r :=
  decode_write_roundtrip r h

/-- C2 witness: the amended round trip at a concrete `Params` record. -/
theorem C2_roundtrip_witness :
    recordWF (Record.Params [([65], [66])]) = true ∧
    Record.from_bytes (Record.Params [([65], [66])]).type_id
      (Record.Params [([65], [66])]).write_bytes
      = .ok (Record.Params [([65], [66])]) :=
  ⟨by decide, C2_decode_encode_roundtrip _ (by decide)⟩

/-! ## C4: pair order in the encoded stream -/

/-- C4 counterexample: inserting the pair `B = 1` and then the pair `A = 2`
encodes the `A` pair first — the output order is the sorted map order, not
the insertion order (which would put the `B` pair's bytes first). -/
theorem C4_insertion_order_counterexample :
    pairsToBytes (mapInsert [65] [50] (mapInsert [66] [49] []))
      = [1, 1, 65, 50, 1, 1, 66, 49] ∧
    ([1, 1, 65, 50, 1, 1, 66, 49] : List Nat) ≠ [1, 1, 66, 49, 1, 1, 65, 50] := by
  refine ⟨rfl, by decide⟩

/-- C4 (amended): the encoded stream lists the pairs in ascending
byte-lexicographic name order — the `BTreeMap` iteration order — independent
of the order they were inserted: any insert-built map is sorted, and for two
distinct keys both insertion orders produce the same byte stream, with the
smaller key's pair first. -/
theorem C4_sorted_encoding :
    (∀ l : List (List Nat × List Nat), sortedPairs (mapFromInserts l) = true) ∧
    (∀ k v k1 v1 : List Nat, lexLt k k1 = true →
      pairsToBytes (mapInsert k1 v1 (mapInsert k v [])) =
        (write_pair_len k.length ++ write_pair_len v.length ++ k ++ v) ++
        (write_pair_len k1.length ++ write_pair_len v1.length ++ k1 ++ v1) ∧
      pairsToBytes (mapInsert k v (mapInsert k1 v1 [])) =
        (write_pair_len k.length ++ write_pair_len v.length ++ k ++ v) ++
        (write_pair_len k1.length ++ write_pair_len v1.length ++ k1 ++ v1)) := by
  constructor
  · intro l
    exact foldl_mapInsert_sortedPairs l [] (by simp [sortedPairs])
  · intro k v k1 v1 h
    have h2 : lexLt k1 k = false := lexLt_asymm h
    have h3 : k ≠ k1 := lexLt_ne h
    have h4 : k1 ≠ k := fun he => h3 he.symm
    constructor
    · simp [mapInsert, h2, h4, pairsToBytes]
    · simp [mapInsert, h, pairsToBytes]

/-- C4 witness: the amended statement at the concrete keys `A` and `B`. -/
theorem C4_sorted_encoding_witness :
    lexLt [65] [66] = true ∧
    pairsToBytes (mapInsert [66] [49] (mapInsert [65] [50] []))
      = (write_pair_len 1 ++ write_pair_len 1 ++ [65] ++ [50]) ++
        (write_pair_len 1 ++ write_pair_len 1 ++ [66] ++ [49]) :=
  ⟨by decide, by
    have := (C4_sorted_encoding.2 [65] [50] [66] [49] (by decide)).1
    simpa using this⟩

/-! ## C8: the name-value length encoding -/

/-- C8 counterexample: the length field does not survive the round trip for
every length.  The Rust encoder casts to u32 and the high bit doubles as the
long-form marker, so the length 2^31 encodes to `[0x80, 0, 0, 0]`, which
decodes to 0. -/
theorem C8_length_roundtrip_counterexample :
    read_pair_len (write_pair_len 2147483648) = .ok (0, []) ∧
    read_pair_len (write_pair_len 2147483648) ≠ .ok (2147483648, []) := by
  constructor
  · rfl
  · intro h
    rw [show read_pair_len (write_pair_len 2147483648) = .ok (0, []) from rfl] at h
    simp at h

/-- C8 (amended): a length of at most 127 is written as that single byte; a
larger length is written as four bytes whose first has the most significant
bit set; and for every length below 2^31 (the point where the u32 cast and
the marker bit start destroying information) decoding inverts encoding,
passing the remaining bytes through. -/
theorem C8_length_encoding :
    (∀ len : Nat, (write_pair_len len).length = if len ≤ 127 then 1 else 4) ∧
    (∀ len : Nat, len ≤ 127 → write_pair_len len = [len]) ∧
    (∀ len : Nat, 127 < len →
      128 ≤ (write_pair_len len).headD 0 ∧ (write_pair_len len).headD 0 < 256) ∧
    (∀ len : Nat, ∀ rest : List Nat, len < 2147483648 →
      read_pair_len (write_pair_len len ++ rest) = .ok (len, rest)) := by
  refine ⟨?_, ?_, ?_, ?_⟩
  · intro len
    by_cases h : len ≤ 127
    · simp only [write_pair_len, gt_iff_lt]
      rw [if_neg (by omega), if_pos h]
      simp
    · simp only [write_pair_len, gt_iff_lt]
      rw [if_pos (by omega), if_neg h]
      simp
  · intro len h
    simp only [write_pair_len, gt_iff_lt]
    rw [if_neg (by omega)]
  · intro len h
    have : len > 127 := h
    simp only [write_pair_len, if_pos this, List.headD_cons]
    by_cases hb : len / 16777216 % 256 < 128
    · simp [hb]; omega
    · simp [hb]; omega
  · intro len rest h
    exact read_write_pair_len h rest

/-- C8 witness: the amended statement's round trip at length 200. -/
theorem C8_length_encoding_witness :
    (200 : Nat) < 2147483648 ∧
    read_pair_len (write_pair_len 200 ++ [7]) = .ok (200, [7]) :=
  ⟨by decide, C8_length_encoding.2.2.2 200 [7] (by decide)⟩

/-! ## Step lemmas for the packet-level readers -/

theorem packetCount_nil : packetCount [] = some 0 := by
  rw [packetCount.eq_def]

theorem packetCount_step {input rest : List Nat} {p : Packet}
    (hne : input ≠ []) (h : readPacket input = .ok (p, rest)) :
    packetCount input = (packetCount rest).map (· + 1) := by
  match input with
  | [] => exact absurd rfl hne
  | b :: bs =>
    rw [packetCount.eq_def]
    split
    · rename_i x heq
      exact absurd heq (by simp)
    · rename_i q rest0 heq
      injection heq with hb hbs
      subst hb
      subst hbs
      split
      · rename_i e heq2
        rw [h] at heq2
        exact absurd heq2 (by simp)
      · rename_i p2 rest3 heq2
        rw [h] at heq2
        have hcm : p = p2 ∧ rest = rest3 := by simpa using heq2
        rw [hcm.2]

theorem readRecordLoop_error {t : Nat} {acc : List (List Nat)}
    {input : List Nat} {e : Error} (h : readPacket input = .error e) :
    readRecordLoop t acc input = .error e := by
  rw [readRecordLoop.eq_def]
  split
  · rename_i e2 heq
    rw [h] at heq
    obtain rfl : e = e2 := by simpa using heq
    rfl
  · rename_i p rest heq
    rw [h] at heq
    exact absurd heq (by simp)

theorem readRecordLoop_mismatch {t : Nat} {acc : List (List Nat)}
    {input rest : List Nat} {p : Packet}
    (h : readPacket input = .ok (p, rest)) (ht : p.type_id ≠ t) :
    readRecordLoop t acc input = .error .MalformedRecordStream := by
  rw [readRecordLoop.eq_def]
  split
  · rename_i e heq
    rw [h] at heq
    exact absurd heq (by simp)
  · rename_i q rest2 heq
    rw [h] at heq
    have hc : p = q ∧ rest = rest2 := by simpa using heq
    rw [← hc.1]
    simp [ht]

theorem readRecordLoop_last {t : Nat} {acc : List (List Nat)}
    {input rest : List Nat} {p : Packet}
    (h : readPacket input = .ok (p, rest)) (ht : p.type_id = t)
    (hc : p.content = []) :
    readRecordLoop t acc input = .ok (acc, rest) := by
  rw [readRecordLoop.eq_def]
  split
  · rename_i e heq
    rw [h] at heq
    exact absurd heq (by simp)
  · rename_i q rest2 heq
    rw [h] at heq
    have hcm : p = q ∧ rest = rest2 := by simpa using heq
    rw [← hcm.1, ← hcm.2]
    simp [ht, hc, Packet.is_empty]

theorem readRecordLoop_push {t : Nat} {acc : List (List Nat)}
    {input rest : List Nat} {p : Packet}
    (h : readPacket input = .ok (p, rest)) (ht : p.type_id = t)
    (hc : p.content ≠ []) :
    readRecordLoop t acc input = readRecordLoop t (acc ++ [p.content]) rest := by
  rw [readRecordLoop.eq_def]
  split
  · rename_i e heq
    rw [h] at heq
    exact absurd heq (by simp)
  · rename_i q rest2 heq
    rw [h] at heq
    have hcm : p = q ∧ rest = rest2 := by simpa using heq
    rw [← hcm.1, ← hcm.2]
    simp [ht, hc, Packet.is_empty]

/-- Parsing a client packet: version is 1, request id is 1, no padding. -/
theorem readPacket_encPacket {t : Nat} {content : List Nat}
    (h : content.length < 65536) (rest : List Nat) :
    readPacket (encPacket t content ++ rest) = .ok (⟨t, content⟩, rest) := by
  simp only [encPacket, List.cons_append, List.append_assoc, readPacket]
  rw [if_neg (by omega), if_neg (by omega)]
  have hlen : content.length / 256 % 256 * 256 + content.length % 256 =
      content.length := by omega
  rw [hlen]
  rw [if_neg (by simp)]
  simp [List.take_left, List.drop_left]

/-- Parsing a packet produced by `write_record`: the single packet carries
the whole payload and the declared padding follows it. -/
theorem readPacket_writeRecord {r : Record}
    (h : r.write_bytes.length < 65536) (rest : List Nat) :
    readPacket (writeRecord r ++ rest) = .ok (⟨r.type_id, r.write_bytes⟩, rest) := by
  by_cases hm : r.is_management_record
  all_goals {
    simp only [writeRecord, hm, if_true, if_false, List.cons_append,
      List.append_assoc, List.nil_append, readPacket, Bool.false_eq_true,
      reduceIte]
    rw [if_neg (by omega), if_neg (by omega)]
    have hlen : r.write_bytes.length / 256 % 256 * 256 + r.write_bytes.length % 256 =
        r.write_bytes.length := by omega
    rw [hlen]
    rw [if_neg (by simp only [List.length_append, List.length_replicate]; omega)]
    rw [List.take_left, List.drop_left, List.drop_left' (by simp)]
  }

/-! ## Read-record behaviour on packet streams -/

/-- A discrete-or-empty first packet is decoded immediately. -/
theorem readRecord_discrete {t : Nat} {content : List Nat}
    (hd : DISCRETE_RECORD_TYPES.contains t = true ∨ content = [])
    (hl : content.length < 65536) (rest : List Nat) :
    readRecord (encPacket t content ++ rest) =
      (Record.from_bytes t content).map (fun r => (r, rest)) := by
  have hcond : ((Packet.mk t content).is_incomplete
      || (Packet.mk t content).is_empty) = true := by
    rcases hd with hd | hd
    · simp only [Packet.is_incomplete]
      rw [hd]
      simp
    · simp [Packet.is_empty, hd]
  simp only [readRecord, readPacket_encPacket hl rest, Bind.bind, Except.bind,
    hcond, if_true]
  cases hfb : Record.from_bytes t content <;>
    simp [hfb, Except.map, Except.pure, pure]

/-- Accumulating a run of nonempty same-type packets up to the empty
trailer returns the chunks in arrival order. -/
theorem readRecordLoop_chunks {t : Nat} (chunks : List (List Nat))
    (acc : List (List Nat)) (tail : List Nat)
    (hc : ∀ c ∈ chunks, c ≠ [] ∧ c.length < 65536) :
    readRecordLoop t acc
        ((chunks.map (encPacket t)).flatten ++ (encPacket t [] ++ tail)) =
      .ok (acc ++ chunks, tail) := by
  induction chunks generalizing acc with
  | nil =>
    simp only [List.map_nil, List.flatten_nil, List.nil_append, List.append_nil]
    exact readRecordLoop_last (readPacket_encPacket (by simp) tail) rfl rfl
  | cons c cs ih =>
    obtain ⟨hne, hlt⟩ := hc c (by simp)
    simp only [List.map_cons, List.flatten_cons, List.append_assoc]
    rw [readRecordLoop_push (readPacket_encPacket hlt _) rfl hne]
    dsimp only
    rw [ih (acc ++ [c]) fun x hx => hc x (by simp [hx])]
    simp

/-- A nonempty stream-type first packet starts accumulation: the record is
decoded from the concatenation of the chunks up to the empty trailer. -/
theorem readRecord_stream {t : Nat} {c : List Nat} {cs : List (List Nat)}
    (ht : DISCRETE_RECORD_TYPES.contains t = false)
    (hc : ∀ x ∈ c :: cs, x ≠ [] ∧ x.length < 65536) (rest : List Nat) :
    readRecord ((((c :: cs).map (encPacket t)).flatten) ++ (encPacket t [] ++ rest)) =
      (Record.from_bytes t ((c :: cs).flatten)).map (fun r => (r, rest)) := by
  obtain ⟨hne, hlt⟩ := hc c (by simp)
  have hcond : ((Packet.mk t c).is_incomplete
      || (Packet.mk t c).is_empty) = false := by
    simp only [Packet.is_incomplete, Packet.is_empty]
    rw [ht]
    simp [List.isEmpty_iff, hne]
  have hloop := readRecordLoop_chunks (t := t) cs [c] rest
    (fun x hx => hc x (by simp [hx]))
  simp only [List.map_cons, List.flatten_cons, List.append_assoc]
  simp only [readRecord, readPacket_encPacket hlt _, Bind.bind, Except.bind,
    hcond, Bool.false_eq_true, if_false]
  rw [hloop]
  simp only [List.flatten_cons]
  cases hfb : Record.from_bytes t (c ++ cs.flatten) <;>
    simp [hfb, Except.map, Except.pure, pure]

/-- Accumulation aborts as soon as a packet of a different type id shows up,
regardless of how many valid chunks preceded it. -/
theorem readRecordLoop_chunks_mismatch {t t2 : Nat} (cs : List (List Nat))
    (acc : List (List Nat)) {c2 : List Nat} (rest : List Nat)
    (hc : ∀ x ∈ cs, x ≠ [] ∧ x.length < 65536)
    (hl2 : c2.length < 65536) (hmt : t2 ≠ t) :
    readRecordLoop t acc
        ((cs.map (encPacket t)).flatten ++ (encPacket t2 c2 ++ rest)) =
      .error .MalformedRecordStream := by
  induction cs generalizing acc with
  | nil =>
    simp only [List.map_nil, List.flatten_nil, List.nil_append]
    exact readRecordLoop_mismatch (readPacket_encPacket hl2 rest) hmt
  | cons c cs ih =>
    obtain ⟨hne, hlt⟩ := hc c (by simp)
    simp only [List.map_cons, List.flatten_cons, List.append_assoc]
    rw [readRecordLoop_push (readPacket_encPacket hlt _) rfl hne]
    exact ih (acc ++ [c]) fun x hx => hc x (by simp [hx])

/-- A mid-stream packet of a different type id aborts the read, at whatever
position it appears. -/
theorem readRecord_mismatch {t t2 : Nat} {c c2 : List Nat}
    {cs : List (List Nat)}
    (ht : DISCRETE_RECORD_TYPES.contains t = false)
    (hc : ∀ x ∈ c :: cs, x ≠ [] ∧ x.length < 65536)
    (hl2 : c2.length < 65536) (hmt : t2 ≠ t)
    (rest : List Nat) :
    readRecord ((((c :: cs).map (encPacket t)).flatten) ++
        (encPacket t2 c2 ++ rest)) =
      .error .MalformedRecordStream := by
  obtain ⟨hne, hlt⟩ := hc c (by simp)
  have hcond : ((Packet.mk t c).is_incomplete
      || (Packet.mk t c).is_empty) = false := by
    simp only [Packet.is_incomplete, Packet.is_empty]
    rw [ht]
    simp [List.isEmpty_iff, hne]
  have hloop := @readRecordLoop_chunks_mismatch t t2 cs [c] c2 rest
    (fun x hx => hc x (by simp [hx])) hl2 hmt
  simp only [List.map_cons, List.flatten_cons, List.append_assoc]
  simp only [readRecord, readPacket_encPacket hlt _, Bind.bind, Except.bind,
    hcond, Bool.false_eq_true, if_false]
  rw [hloop]

/-! ## C5: read_record behaviour -/

/-- C5: `read_record` decodes a discrete-typed or empty first packet
immediately; otherwise it accumulates packets of the first packet's type
until an empty trailer arrives, concatenates the payloads in arrival order
and decodes the concatenation; and a mid-stream packet with a different
type id fails the read with `MalformedRecordStream`. -/
theorem C5_read_record_behaviour :
    (∀ t : Nat, ∀ content rest : List Nat,
      (DISCRETE_RECORD_TYPES.contains t = true ∨ content = []) →
      content.length < 65536 →
      readRecord (encPacket t content ++ rest) =
        (Record.from_bytes t content).map (fun r => (r, rest))) ∧
    (∀ t : Nat, ∀ c : List Nat, ∀ cs : List (List Nat), ∀ rest : List Nat,
      DISCRETE_RECORD_TYPES.contains t = false →
      (∀ x ∈ c :: cs, x ≠ [] ∧ x.length < 65536) →
      readRecord ((((c :: cs).map (encPacket t)).flatten) ++ (encPacket t [] ++ rest)) =
        (Record.from_bytes t ((c :: cs).flatten)).map (fun r => (r, rest))) ∧
    (∀ t t2 : Nat, ∀ c : List Nat, ∀ cs : List (List Nat), ∀ c2 rest : List Nat,
      DISCRETE_RECORD_TYPES.contains t = false →
      (∀ x ∈ c :: cs, x ≠ [] ∧ x.length < 65536) →
      c2.length < 65536 → t2 ≠ t →
      readRecord ((((c :: cs).map (encPacket t)).flatten) ++
          (encPacket t2 c2 ++ rest)) =
        .error .MalformedRecordStream) :=
  ⟨fun _ _ rest hd hl => readRecord_discrete hd hl rest,
   fun _ _ _ rest ht hc => readRecord_stream ht hc rest,
   fun _ _ _ _ _ rest ht hc hl2 hmt => readRecord_mismatch ht hc hl2 hmt rest⟩

/-- C5 witness: a two-chunk Stdin stream with trailer reassembles, leaving
the following bytes unconsumed. -/
theorem C5_read_record_witness :
    DISCRETE_RECORD_TYPES.contains 5 = false ∧
    readRecord (((([[72], [73]] : List (List Nat)).map (encPacket 5)).flatten) ++
        (encPacket 5 [] ++ [9])) =
      (Record.from_bytes 5 (([[72], [73]] : List (List Nat)).flatten)).map
        (fun r => (r, [9])) :=
  ⟨by decide,
   C5_read_record_behaviour.2.1 5 [72] [[73]] [9] (by decide) (by decide)⟩

/-! ## C1: write_record framing -/

/-- The empty record of the same stream variant: what the repository's own
tests append to terminate a stream (`round_trip` in `connection.rs`). -/
def streamEmptyLike : Record → Record
  | .Params _ => .Params []
  | .Stdin _ => .Stdin []
  | .Data _ => .Data []
  | .Stdout _ => .Stdout []
  | .Stderr _ => .Stderr []
  | r => r

/-- C1 counterexample: `write_record` on a 1-byte Stdin record emits one
packet, not the ⌈1/65535⌉+1 = 2 packets the claim requires, and reading the
emitted bytes back does not reassemble the record — it fails waiting for
more packets. -/
theorem C1_write_record_counterexample :
    packetCount (writeRecord (.Stdin [65])) = some 1 ∧
    some 1 ≠ some ((1 + 65534) / 65535 + 1) ∧
    readRecord (writeRecord (.Stdin [65])) = .error .UnexpectedSocketClose := by
  have hp : readPacket (writeRecord (Record.Stdin [65])) = .ok (⟨5, [65]⟩, []) := by
    have h := readPacket_writeRecord (r := .Stdin [65]) (by decide) []
    simpa [Record.type_id, Record.write_bytes, FCGI_STDIN] using h
  refine ⟨?_, by decide, ?_⟩
  · rw [packetCount_step (by decide) hp, packetCount_nil]
    rfl
  · have h1 : ((Packet.mk 5 [65]).is_incomplete
        || (Packet.mk 5 [65]).is_empty) = false := by decide
    simp only [readRecord, hp, Bind.bind, Except.bind, h1,
      Bool.false_eq_true, if_false]
    rw [readRecordLoop_error
      (show readPacket [] = .error .UnexpectedSocketClose from rfl)]

/-- C1 (amended): `write_record` never splits and never appends a trailer —
it emits exactly one packet per call holding the whole serialized payload.
A nonempty stream record of at most 65535 payload bytes round-trips when it
is transmitted the way the repository's own tests do: one `write_record`
call for the record plus one for the empty record of the same type,
producing 2 packets in total, which `read_record` reassembles exactly. -/
theorem C1_write_record_two_calls_roundtrip (r : Record)
    (hs : DISCRETE_RECORD_TYPES.contains r.type_id = false)
    (hwf : recordWF r = true)
    (hne : r.write_bytes ≠ [])
    (hlen : r.write_bytes.length ≤ 65535) :
    packetCount (writeRecord r ++ writeRecord (streamEmptyLike r)) = some 2 ∧
    readRecord (writeRecord r ++ writeRecord (streamEmptyLike r)) = .ok (r, []) := by
  have hps : (streamEmptyLike r).write_bytes = [] ∧
      (streamEmptyLike r).type_id = r.type_id := by
    cases r <;>
      first
        | exact ⟨rfl, rfl⟩
        | simp [Record.type_id, DISCRETE_RECORD_TYPES, FCGI_GET_VALUES,
            FCGI_GET_VALUES_RESULT, FCGI_UNKNOWN_TYPE, FCGI_BEGIN_REQUEST,
            FCGI_ABORT_REQUEST, FCGI_END_REQUEST] at hs
  have hlt : r.write_bytes.length < 65536 := by omega
  have hp1 : readPacket (writeRecord r ++ writeRecord (streamEmptyLike r)) =
      .ok (⟨r.type_id, r.write_bytes⟩, writeRecord (streamEmptyLike r)) :=
    readPacket_writeRecord hlt _
  have hp2 : readPacket (writeRecord (streamEmptyLike r)) =
      .ok (⟨r.type_id, []⟩, []) := by
    have h := readPacket_writeRecord (r := streamEmptyLike r)
      (by rw [hps.1]; simp) []
    rw [hps.1, hps.2] at h
    simpa using h
  constructor
  · rw [packetCount_step (by simp [writeRecord]) hp1,
      packetCount_step (by simp [writeRecord]) hp2, packetCount_nil]
    rfl
  · have hcond : ((Packet.mk r.type_id r.write_bytes).is_incomplete
        || (Packet.mk r.type_id r.write_bytes).is_empty) = false := by
      simp only [Packet.is_incomplete, Packet.is_empty]
      rw [hs]
      simp [List.isEmpty_iff, hne]
    simp only [readRecord, hp1, Bind.bind, Except.bind, hcond,
      Bool.false_eq_true, if_false]
    rw [readRecordLoop_last hp2 rfl rfl]
    simp only [List.flatten_cons, List.flatten_nil, List.append_nil,
      Except.bind]
    rw [decode_write_roundtrip r hwf]
    simp [pure, Except.pure]

/-- C1 witness: the amended round trip at a concrete two-byte Stdin
record. -/
theorem C1_write_record_witness :
    packetCount (writeRecord (.Stdin [72, 73]) ++
        writeRecord (streamEmptyLike (.Stdin [72, 73]))) = some 2 ∧
    readRecord (writeRecord (.Stdin [72, 73]) ++
        writeRecord (streamEmptyLike (.Stdin [72, 73]))) =
      .ok (.Stdin [72, 73], []) :=
  C1_write_record_two_calls_roundtrip (.Stdin [72, 73])
    (by decide) (by decide) (by decide) (by decide)

/-! ## C7: packet arithmetic and header fields -/

/-- C7: every packet `write_record` emits is padded to a multiple of 8 —
`(8 + payload_len + padding) % 8 = 0` with `padding ∈ [0, 7]` — the padding
bytes are zero, the version byte is 1, and the request id bytes are
`[0, 0]` exactly for the management record types (GetValues = 9,
GetValuesResult = 10, UnknownType = 11) and `[0, 1]` for every other
record type. -/
theorem C7_packet_padding_and_ids (r : Record) :
    writePadding r.write_bytes.length < 8 ∧
    (8 + r.write_bytes.length + writePadding r.write_bytes.length) % 8 = 0 ∧
    (writeRecord r).take 1 = [1] ∧
    (writeRecord r).drop (8 + r.write_bytes.length) =
      List.replicate (writePadding r.write_bytes.length) 0 ∧
    ((writeRecord r).drop 2).take 2 =
      (if r.type_id = 9 ∨ r.type_id = 10 ∨ r.type_id = 11
       then [0, 0] else [0, 1]) := by
  refine ⟨?_, ?_, ?_, ?_, ?_⟩
  · unfold writePadding
    omega
  · unfold writePadding
    omega
  · simp [writeRecord]
  · have h4 : writeRecord r =
        ([1, r.type_id] ++
         (if r.is_management_record then [0, 0] else [0, 1]) ++
         [r.write_bytes.length / 256 % 256, r.write_bytes.length % 256] ++
         [writePadding r.write_bytes.length, 0] ++
         r.write_bytes) ++
        List.replicate (writePadding r.write_bytes.length) 0 := by
      simp [writeRecord, List.append_assoc]
    rw [h4, List.drop_left' ?hl]
    case hl =>
      by_cases hm : r.is_management_record <;> simp [hm] <;> omega
  · cases r <;>
      simp [writeRecord, Record.is_management_record, Record.type_id,
        MANAGEMENT_RECORD_TYPES, FCGI_GET_VALUES, FCGI_GET_VALUES_RESULT,
        FCGI_UNKNOWN_TYPE, FCGI_BEGIN_REQUEST, FCGI_ABORT_REQUEST,
        FCGI_END_REQUEST, FCGI_PARAMS, FCGI_STDIN, FCGI_DATA, FCGI_STDOUT,
        FCGI_STDERR]

/-! ## C10: role gating in BeginRequest decoding -/

/-- C10: decoding a `BeginRequest` payload fails with `UnsupportedRole(id)`
for every role id other than 1, and every successfully decoded
`BeginRequest` has role Responder. -/
theorem C10_only_responder_decodes :
    (∀ b1 b0 flags x3 x4 x5 x6 x7 : Nat, b1 < 256 → b0 < 256 →
      b1 * 256 + b0 ≠ 1 →
      BeginRequest.from_record_bytes [b1, b0, flags, x3, x4, x5, x6, x7] =
        .error (.UnsupportedRole (b1 * 256 + b0))) ∧
    (∀ payload : List Nat, ∀ br : BeginRequest,
      BeginRequest.from_record_bytes payload = .ok br →
      br.role = .Responder) := by
  constructor
  · intro b1 b0 flags x3 x4 x5 x6 x7 hb1 hb0 hne
    simp only [BeginRequest.from_record_bytes, Role.from_record_bytes]
    rw [if_neg hne]
    by_cases h2 : b1 * 256 + b0 = 2
    · rw [if_pos h2, h2]
      simp [Role.supported, Role.id]
    · rw [if_neg h2]
      by_cases h3 : b1 * 256 + b0 = 3
      · rw [if_pos h3, h3]
        simp [Role.supported, Role.id]
      · rw [if_neg h3]
  · intro payload br h
    unfold BeginRequest.from_record_bytes at h
    split at h
    · rename_i r1 r0 flags x3 x4 x5 x6 x7
      split at h
      · exact absurd h (by simp)
      · rename_i role heqr
        split at h
        · rename_i hsup
          simp only [Except.ok.injEq] at h
          subst h
          simpa [Role.supported] using hsup
        · exact absurd h (by simp)
    · exact absurd h (by simp)

/-- C10 witness: the Authorizer code (2) is rejected as `UnsupportedRole 2`. -/
theorem C10_only_responder_witness :
    BeginRequest.from_record_bytes [0, 2, 0, 0, 0, 0, 0, 0] =
      .error (.UnsupportedRole 2) :=
  C10_only_responder_decodes.1 0 2 0 0 0 0 0 0
    (by decide) (by decide) (by decide)

/-! ## C6: rejection of non-Responder roles and keep-alive -/

/-- C6: when the first record is a BeginRequest with a role id other than 1
the connection replies `EndRequest(0, UnknownRole)`; when the role is
Responder but the KEEP_CONN bit (bit 0 of flags) is set it replies
`EndRequest(0, CantMpxConn)` (`MultiplexingUnsupported` in the source); in
both cases the output does not depend on the configured handlers, which are
never invoked. -/
theorem C6_unknown_role_and_keepalive :
    (∀ cfg : ServerConfig, ∀ rid flags : Nat, ∀ rest : List Nat,
      rid < 65536 → rid ≠ 1 →
      handle_connection cfg
        (encPacket 1 [rid / 256, rid % 256, flags, 0, 0, 0, 0, 0] ++ rest) =
        writeRecord (.EndRequest ⟨0, .UnknownRole⟩)) ∧
    (∀ cfg : ServerConfig, ∀ flags : Nat, ∀ rest : List Nat,
      flags % 2 = 1 →
      handle_connection cfg
        (encPacket 1 [0, 1, flags, 0, 0, 0, 0, 0] ++ rest) =
        writeRecord (.EndRequest ⟨0, .MultiplexingUnsupported⟩)) := by
  constructor
  · intro cfg rid flags rest h16 hne1
    have hid : rid / 256 * 256 + rid % 256 = rid := by omega
    have hdec : Record.from_bytes 1 [rid / 256, rid % 256, flags, 0, 0, 0, 0, 0] =
        .error (.UnsupportedRole rid) := by
      simp only [Record.from_bytes, FCGI_GET_VALUES, FCGI_GET_VALUES_RESULT,
        FCGI_BEGIN_REQUEST, BeginRequest.from_record_bytes,
        Role.from_record_bytes, hid]
      norm_num
      rw [if_neg hne1]
      by_cases h2 : rid = 2
      · subst h2
        simp [Role.supported, Role.id, Except.map]
      · rw [if_neg h2]
        by_cases h3 : rid = 3
        · subst h3
          simp [Role.supported, Role.id, Except.map]
        · rw [if_neg h3]
          rfl
    have hrr : readRecord
        (encPacket 1 [rid / 256, rid % 256, flags, 0, 0, 0, 0, 0] ++ rest) =
        .error (.UnsupportedRole rid) := by
      rw [readRecord_discrete (Or.inl (by decide)) (by simp) rest, hdec]
      rfl
    simp [handle_connection, hrr, handle_error]
  · intro cfg flags rest hka
    have hdec : Record.from_bytes 1 [0, 1, flags, 0, 0, 0, 0, 0] =
        .ok (.BeginRequest ⟨.Responder, flags⟩) := by
      simp [Record.from_bytes, FCGI_GET_VALUES, FCGI_GET_VALUES_RESULT,
        FCGI_BEGIN_REQUEST, BeginRequest.from_record_bytes,
        Role.from_record_bytes, Role.supported, Except.map]
    have hrr : readRecord
        (encPacket 1 [0, 1, flags, 0, 0, 0, 0, 0] ++ rest) =
        .ok (.BeginRequest ⟨.Responder, flags⟩, rest) := by
      rw [readRecord_discrete (Or.inl (by decide)) (by simp) rest, hdec]
      rfl
    simp [handle_connection, hrr, BeginRequest.keep_alive, hka]

/-- C6 witness: the spec's scenarios — Authorizer (role 2) is answered with
UnknownRole, and a Responder BeginRequest with KEEP_CONN set is answered
with the multiplexing rejection — with a configured fallback handler that
is not consulted. -/
theorem C6_unknown_role_witness :
    handle_connection ⟨none, none, some (fun _ => Response.default)⟩
        (encPacket 1 [0, 2, 0, 0, 0, 0, 0, 0] ++ []) =
      writeRecord (.EndRequest ⟨0, .UnknownRole⟩) ∧
    handle_connection ⟨none, none, some (fun _ => Response.default)⟩
        (encPacket 1 [0, 1, 1, 0, 0, 0, 0, 0] ++ []) =
      writeRecord (.EndRequest ⟨0, .MultiplexingUnsupported⟩) :=
  ⟨C6_unknown_role_and_keepalive.1 _ 2 0 [] (by decide) (by decide),
   C6_unknown_role_and_keepalive.2 _ 1 [] (by decide)⟩

/-! ## C9: GetValues handling -/

theorem getValuesReply_eq (names : List (List Nat)) :
    getValuesReply names =
      if MPXS_CONNS ∈ names then [(MPXS_CONNS, [48])] else [] := by
  induction names with
  | nil => rfl
  | cons v rest ih =>
    by_cases hv : v = MPXS_CONNS
    · subst hv
      simp [getValuesReply]
    · have hmem : (MPXS_CONNS ∈ v :: rest) ↔ (MPXS_CONNS ∈ rest) := by
        simp only [List.mem_cons]
        constructor
        · rintro (h | h)
          · exact absurd h.symm hv
          · exact h
        · exact Or.inr
      simp only [getValuesReply, hv, if_false, reduceIte, ih]
      by_cases hm : MPXS_CONNS ∈ rest
      · rw [if_pos hm, if_pos (hmem.mpr hm)]
      · rw [if_neg hm, if_neg (fun hh => hm (hmem.mp hh))]

/-- C9: a connection whose first record is GetValues is answered with
exactly one GetValuesResult: it contains `FCGI_MPXS_CONNS = "0"` exactly
when that name was queried, and nothing else — unknown names are omitted,
and an empty query yields an empty result.  The configured handlers do not
participate. -/
theorem C9_get_values_reply (cfg : ServerConfig) (q : Pairs)
    (hq : pairsWF q = true) (hlen : (pairsToBytes q).length < 65536) :
    handle_connection cfg (encPacket 9 (pairsToBytes q)) =
      writeRecord (.GetValuesResult
        (if MPXS_CONNS ∈ q.map Prod.fst then [(MPXS_CONNS, [48])] else [])) := by
  have hdec : Record.from_bytes 9 (pairsToBytes q) = .ok (.GetValues q) := by
    simp [Record.from_bytes, FCGI_GET_VALUES, pairs_roundtrip hq, Except.map]
  have hrr : readRecord (encPacket 9 (pairsToBytes q)) = .ok (.GetValues q, []) := by
    have h := readRecord_discrete (t := 9) (Or.inl (by decide)) hlen []
    rw [List.append_nil] at h
    rw [h, hdec]
    rfl
  simp only [handle_connection, hrr, handle_get_values, getValuesReply_eq]

/-- C9 witness: querying `FCGI_MPXS_CONNS` (with an empty value, as the
protocol sends queries) is answered with `FCGI_MPXS_CONNS = "0"`. -/
theorem C9_get_values_witness :
    pairsWF [(MPXS_CONNS, [])] = true ∧
    handle_connection ⟨none, none, none⟩
        (encPacket 9 (pairsToBytes [(MPXS_CONNS, [])])) =
      writeRecord (.GetValuesResult [(MPXS_CONNS, [48])]) := by
  refine ⟨by decide, ?_⟩
  have h := C9_get_values_reply ⟨none, none, none⟩ [(MPXS_CONNS, [])]
    (by decide) (by decide)
  simpa using h

/-! ## C3: the Responder success path -/

/-- C3 counterexample: response headers are not serialized in insertion
order.  Setting header `B` and then header `A` writes the `A: 2` line
before the `B: 1` line (the `BTreeMap` iteration order), not the insertion
order. -/
theorem C3_header_order_counterexample :
    ((Response.default.set_header (strBytes "B") (strBytes "1")).set_header
        (strBytes "A") (strBytes "2")).write_stdout_bytes =
      strBytes "A: 2\nB: 1\nStatus: 200\n\n" ∧
    strBytes "A: 2\nB: 1\nStatus: 200\n\n" ≠
      strBytes "B: 1\nA: 2\nStatus: 200\n\n" := by
  refine ⟨by decide, by decide⟩

/-- C3 (amended): on the successful Responder path — well-formed
`BeginRequest(Responder, keep_alive = false)`, a Params stream carrying the
three required CGI variables, and a Stdin stream — the connection writes
exactly one Stdout record whose content is the handler's response headers
in ascending name order as `K: V` lines, then `Status: <code>`, then a
blank line, then the body bytes, immediately followed by exactly one
EndRequest with `app_status = 0` and `protocol_status = RequestComplete`,
and nothing else. -/
theorem C3_responder_success_output (handler : Request → Response)
    (m : Pairs) (body : List Nat) (flags : Nat)
    (mv pv qv : List Nat) (m1 m2 m3 : Pairs)
    (hm : pairsWF m = true)
    (hflag : flags % 2 = 0)
    (hpne : pairsToBytes m ≠ [])
    (hplen : (pairsToBytes m).length < 65536)
    (hbne : body ≠ [])
    (hblen : body.length < 65536)
    (h1 : mapRemove (strBytes "REQUEST_METHOD") m = (some mv, m1))
    (h2 : mapRemove (strBytes "PATH_INFO") m1 = (some pv, m2))
    (h3 : mapRemove (strBytes "QUERY_STRING") m2 = (some qv, m3)) :
    handle_connection ⟨none, none, some handler⟩
        (encPacket 1 [0, 1, flags, 0, 0, 0, 0, 0] ++
         (encPacket 4 (pairsToBytes m) ++
          (encPacket 4 [] ++
           (encPacket 5 body ++ encPacket 5 [])))) =
      writeRecord (.Stdout
        (handler ⟨mv, pv, qv, buildHeaders m3, body⟩).write_stdout_bytes) ++
      writeRecord (.EndRequest ⟨0, .RequestComplete⟩) := by
  have hdec1 : Record.from_bytes 1 [0, 1, flags, 0, 0, 0, 0, 0] =
      .ok (.BeginRequest ⟨.Responder, flags⟩) := by
    simp [Record.from_bytes, FCGI_GET_VALUES, FCGI_GET_VALUES_RESULT,
      FCGI_BEGIN_REQUEST, BeginRequest.from_record_bytes,
      Role.from_record_bytes, Role.supported, Except.map]
  have hrr1 : readRecord
      (encPacket 1 [0, 1, flags, 0, 0, 0, 0, 0] ++
       (encPacket 4 (pairsToBytes m) ++
        (encPacket 4 [] ++ (encPacket 5 body ++ encPacket 5 [])))) =
      .ok (.BeginRequest ⟨.Responder, flags⟩,
        encPacket 4 (pairsToBytes m) ++
        (encPacket 4 [] ++ (encPacket 5 body ++ encPacket 5 []))) := by
    rw [readRecord_discrete (Or.inl (by decide)) (by simp) _, hdec1]
    rfl
  have hrr2 : readRecord
      (encPacket 4 (pairsToBytes m) ++
       (encPacket 4 [] ++ (encPacket 5 body ++ encPacket 5 []))) =
      .ok (.Params m, encPacket 5 body ++ encPacket 5 []) := by
    have h := @readRecord_stream 4 (pairsToBytes m) []
      (by decide)
      (by
        intro x hx
        simp at hx
        subst hx
        exact ⟨hpne, hplen⟩)
      (encPacket 5 body ++ encPacket 5 [])
    simp only [List.map_cons, List.map_nil, List.flatten_cons,
      List.flatten_nil, List.append_nil] at h
    rw [h]
    simp [Record.from_bytes, FCGI_GET_VALUES, FCGI_GET_VALUES_RESULT,
      FCGI_BEGIN_REQUEST, FCGI_PARAMS, pairs_roundtrip hm, Except.map]
  have hrr3 : readRecord (encPacket 5 body ++ encPacket 5 []) =
      .ok (.Stdin body, []) := by
    have h := @readRecord_stream 5 body []
      (by decide)
      (by
        intro x hx
        simp at hx
        subst hx
        exact ⟨hbne, hblen⟩)
      []
    simp only [List.map_cons, List.map_nil, List.flatten_cons,
      List.flatten_nil, List.append_nil] at h
    rw [h]
    simp [Record.from_bytes, FCGI_GET_VALUES, FCGI_GET_VALUES_RESULT,
      FCGI_BEGIN_REQUEST, FCGI_PARAMS, FCGI_STDIN, Except.map]
  simp only [handle_connection, hrr1, hrr2, hrr3, BeginRequest.keep_alive,
    hflag, h1, h2, h3, resolveResponse, Option.getD]
  norm_num

/-- C3 witness: the spec's Responder-echoes-body scenario — method GET,
path `/`, empty query string, body `BAR`, a handler echoing the body —
yields the Stdout bytes `Status: 200` + blank line + `BAR` followed by
`EndRequest(0, RequestComplete)`. -/
theorem C3_responder_success_witness :
    handle_connection
        ⟨none, none, some (fun r => { Response.default with body := r.body })⟩
        (encPacket 1 [0, 1, 0, 0, 0, 0, 0, 0] ++
         (encPacket 4 (pairsToBytes (mapInsert (strBytes "REQUEST_METHOD") (strBytes "GET")
            (mapInsert (strBytes "PATH_INFO") (strBytes "/")
              (mapInsert (strBytes "QUERY_STRING") [] [])))) ++
          (encPacket 4 [] ++
           (encPacket 5 (strBytes "BAR") ++ encPacket 5 [])))) =
      writeRecord (.Stdout (strBytes "Status: 200\n\nBAR")) ++
      writeRecord (.EndRequest ⟨0, .RequestComplete⟩) := by
  have h := C3_responder_success_output
    (fun r => { Response.default with body := r.body })
    (mapInsert (strBytes "REQUEST_METHOD") (strBytes "GET")
      (mapInsert (strBytes "PATH_INFO") (strBytes "/")
        (mapInsert (strBytes "QUERY_STRING") [] [])))
    (strBytes "BAR") 0
    (strBytes "GET") (strBytes "/") []
    (mapInsert (strBytes "PATH_INFO") (strBytes "/")
      (mapInsert (strBytes "QUERY_STRING") [] []))
    (mapInsert (strBytes "QUERY_STRING") [] [])
    []
    (by decide) (by decide) (by decide) (by decide) (by decide) (by decide)
    (by decide) (by decide) (by decide)
  rw [h]
  have hresp : ((fun (r : Request) => { Response.default with body := r.body })
      ⟨strBytes "GET", strBytes "/", [], buildHeaders [], strBytes "BAR"⟩).write_stdout_bytes =
      strBytes "Status: 200\n\nBAR" := by decide
  rw [hresp]
